import Mathlib

/-!
Verification of `atomchain/mlpot.py`: a glue layer that selects an ML
calculator backend from a string tag, runs a two-phase structural relaxation,
assembles the keyword dictionary for a phonon routine, and wraps a band-gap
prediction model.

The embedding is a shallow one.  External libraries (ASE, matgl, chgnet,
phonopy, torch) are collaborators reached through a fixed call contract; their
behaviour is abstracted into explicit environment records (`FireEnv`,
`GapEnv`), and every externally observable action (imports of backend
libraries, model loads, optimizer runs, file opens, downstream calls) is
recorded in an explicit trace of `Effect` events.  Python mutation becomes
explicit state passing: `relax_with_ml` returns both the relaxed copy and the
caller's object as it stands after the call.
-/

/-- Python's `str.lower()`, character by character over the string's data.
(`String.toLower` itself is defined by well-founded recursion and does not
reduce in the kernel; this data-level form is the same function.) -/
def strLower (s : String) : String :=
  String.mk (s.data.map Char.toLower)

/-- A 3-vector of rational coordinates (floats in the source are modelled as ℚ). -/
structure Vec3 where
  x : ℚ
  y : ℚ
  z : ℚ
deriving DecidableEq

/-- A periodic cell: three lattice vectors. -/
structure Cell where
  a1 : Vec3
  a2 : Vec3
  a3 : Vec3
deriving DecidableEq

/-- A constraint attached to an atoms object.  The source only ever attaches
`FixSymmetry(catoms)` (ase.constraints.FixSymmetry). -/
inductive Constr where
  | fixSymmetry
deriving DecidableEq

/-- A constructed calculator backend, one variant per branch of `init_calc`
plus an opaque variant for calculators supplied ready-made by the caller. -/
inductive Calc where
  | matglCalc (stressWeight : ℚ)
  | m3gnetCalc (fromDir : Option String) (computeStress : Bool)
  | chgnetCalc
  | dpCalc (modelPath : Option String)
  | external (id : Nat)
deriving DecidableEq

/-- An ASE atoms object: positions, species numbers, cell, attached
constraints and the optionally attached calculator (`atoms.calc`; the field is
named `calcObj` here because `calc` is reserved in Lean). -/
structure Atoms where
  positions : List Vec3
  numbers : List Nat
  cell : Cell
  constraints : List Constr
  calcObj : Option Calc
deriving DecidableEq

/-- `atoms.copy()` in ASE: copies positions, numbers, cell and constraints but
not the attached calculator. -/
def Atoms.copy (a : Atoms) : Atoms :=
  { a with calcObj := none }

/-- Values stored in Python keyword dictionaries built by this module. -/
inductive PyVal where
  | pynone
  | pybool (b : Bool)
  | pyint (n : Int)
  | rat (q : ℚ)
  | str (s : String)
  | intList (l : List Int)
  | matrix (m : List (List ℚ))
  | extConst (name : String)
deriving DecidableEq

/-- File open modes; `Trajectory(traj_file, "w", catoms)` uses write mode. -/
inductive FileMode where
  | write
  | read
  | append
deriving DecidableEq

/-- Errors this layer raises itself: `ValueError("")` in `init_calc` and the
`KeyError` from `XCdict[xc]` in `predict_gap`. -/
inductive Err where
  | valueError
  | keyError
deriving DecidableEq

/-- Externally observable actions, in program order. -/
inductive Effect where
  | importLib (name : String)
  | loadModel (name : String)
  | loadDefaultModel (lib : String)
  | loadModelDir (path : String)
  | mkCalc (c : Calc)
  | fireRun (fmax : ℚ) (trajAttached : Bool) (steps : Nat)
  | fireRunUCF (cellFactor : ℚ) (ucfKwargs : List (String × PyVal)) (fmax : ℚ)
      (trajAttached : Bool) (steps : Nat)
  | openTraj (path : String) (mode : FileMode)
  | attachTraj
  | callCalculatePhonon (a : Atoms) (c : Calc) (args : List (String × PyVal))
  | plotPhonon (path : String) (figname : String) (npoints : Nat)
  | predictStructureCall (model : String) (stateFeat : Nat)
deriving DecidableEq

/-- `init_calc(model_type, model_path)` (mlpot.py lines 136-162): an if-chain
on `model_type.lower()`; each recognized branch imports its backend library,
loads a model and constructs a calculator; any other tag raises
`ValueError("")` before any import or load.  The second component is the trace
of external effects performed. -/
def init_calc (model_type : String) (model_path : Option String) :
    Except Err Calc × List Effect :=
  if strLower model_type = "matgl" then
    (Except.ok (Calc.matglCalc 1),
     [Effect.importLib "matgl", Effect.importLib "matgl.ext.ase",
      Effect.loadModel "M3GNet-MP-2021.2.8-PES",
      Effect.mkCalc (Calc.matglCalc 1)])
  else if strLower model_type = "m3gnet" then
    match model_path with
    | none =>
      (Except.ok (Calc.m3gnetCalc none true),
       [Effect.importLib "m3gnet.models",
        Effect.loadDefaultModel "m3gnet",
        Effect.mkCalc (Calc.m3gnetCalc none true)])
    | some p =>
      (Except.ok (Calc.m3gnetCalc (some p) true),
       [Effect.importLib "m3gnet.models",
        Effect.loadModelDir p,
        Effect.mkCalc (Calc.m3gnetCalc (some p) true)])
  else if strLower model_type = "chgnet" then
    (Except.ok Calc.chgnetCalc,
     [Effect.importLib "chgnet.model.dynamics",
      Effect.mkCalc Calc.chgnetCalc])
  else if strLower model_type = "deepmd" then
    (Except.ok (Calc.dpCalc model_path),
     [Effect.importLib "deepmd.calculator",
      Effect.mkCalc (Calc.dpCalc model_path)])
  else
    (Except.error Err.valueError, [])

/-- Claim C1: for every backend tag in the set, compared case-insensitively,
init_calc constructs and returns a calculator; for every other string tag it
raises ValueError with an empty effect trace, i.e. before any external model
load or import of a backend library. -/
theorem init_calc_dispatch (tag : String) (mp : Option String) :
    (strLower tag ∈ ["matgl", "m3gnet", "chgnet", "deepmd"] →
      ∃ c tr, init_calc tag mp = (Except.ok c, tr)) ∧
    (strLower tag ∉ ["matgl", "m3gnet", "chgnet", "deepmd"] →
      init_calc tag mp = (Except.error Err.valueError, [])) := by
  constructor
  · intro h
    simp only [List.mem_cons, List.not_mem_nil, or_false] at h
    unfold init_calc
    rcases h with h | h | h | h
    · rw [h, if_pos rfl]
      exact ⟨_, _, rfl⟩
    · rw [h, if_neg (by decide), if_pos rfl]
      cases mp with
      | none => exact ⟨_, _, rfl⟩
      | some p => exact ⟨_, _, rfl⟩
    · rw [h, if_neg (by decide), if_neg (by decide), if_pos rfl]
      exact ⟨_, _, rfl⟩
    · rw [h, if_neg (by decide), if_neg (by decide), if_neg (by decide), if_pos rfl]
      exact ⟨_, _, rfl⟩
  · intro h
    simp only [List.mem_cons, List.not_mem_nil, or_false, not_or] at h
    obtain ⟨h1, h2, h3, h4⟩ := h
    unfold init_calc
    rw [if_neg h1, if_neg h2, if_neg h3, if_neg h4]

/-- Witness for C1: the recognized tag "MatGL" (mixed case) yields a
calculator, and the unrecognized tag "foo" yields ValueError with no effects. -/
theorem init_calc_dispatch_app :
    (∃ c tr, init_calc "MatGL" none = (Except.ok c, tr)) ∧
    init_calc "foo" none = (Except.error Err.valueError, []) := by
  constructor
  · exact (init_calc_dispatch "MatGL" none).1 (by decide)
  · exact (init_calc_dispatch "foo" none).2 (by decide)

/-- The external behaviour of the ASE optimization machinery, abstracted.
Modelled from the spec: a plain FIRE run on an atoms object optimizes atomic
positions only, while a FIRE run on a `UnitCellFilter` view (parameterized by
`cell_factor` and pass-through keyword options) exposes both positions and
cell vectors as degrees of freedom.  Each run reports the updated degrees of
freedom and the number of optimizer steps it took; `rattle` displaces
positions. -/
structure FireEnv where
  rattlePos : List Vec3 → ℚ → List Vec3
  runPos : Atoms → ℚ → List Vec3 × Nat
  runUCF : Atoms → ℚ → List (String × PyVal) → ℚ → (List Vec3 × Cell) × Nat

/-- The Python `calc` argument of `relax_with_ml`/`phonon_with_ml`: either a
backend tag string, an omitted argument (None), or a ready-made calculator. -/
inductive CalcArg where
  | byName (s : String)
  | noCalc
  | given (c : Calc)
deriving DecidableEq

/-- The keyword parameters of `relax_with_ml` (mlpot.py lines 19-31). -/
structure RelaxConfig where
  relax_cell : Bool
  sym : Bool
  traj_file : String
  output_file : String
  model_path : Option String
  fmax : ℚ
  cell_factor : ℚ
  rattle : Option ℚ
  ucf_kwargs : List (String × PyVal)
deriving DecidableEq

/-- The defaults of `relax_with_ml`: relax_cell=True, sym=True,
traj_file="relax.traj", output_file="POSCAR_relax.vasp", model_path=None,
fmax=0.001, cell_factor=1000, rattle=None, no extra UnitCellFilter kwargs. -/
def defaultRelaxConfig : RelaxConfig :=
  { relax_cell := true
    sym := true
    traj_file := "relax.traj"
    output_file := "POSCAR_relax.vasp"
    model_path := none
    fmax := 1 / 1000
    cell_factor := 1000
    rattle := none
    ucf_kwargs := [] }

/-- Calculator resolution shared by both procedures (mlpot.py lines 52-55 and
95-100): a string tag goes through `init_calc`, an omitted argument defaults
to the "chgnet" backend, a ready-made calculator is used as given. -/
def resolveCalc (ca : CalcArg) (model_path : Option String) :
    Except Err Calc × List Effect :=
  match ca with
  | CalcArg.byName s => init_calc s model_path
  | CalcArg.noCalc => init_calc "chgnet" none
  | CalcArg.given c => (Except.ok c, [])

/-- The result of `relax_with_ml` on success: the relaxed copy that is
returned, and the caller's original atoms object as it stands after the call
(the source mutates only the copy `catoms` made on line 49). -/
structure RelaxOut where
  result : Atoms
  callerAfter : Atoms
deriving DecidableEq

/-- The body of `relax_with_ml` after calculator resolution (mlpot.py lines
49-70): copy, optional rattle, attach calculator, optional FixSymmetry
constraint; with relax_cell two FIRE runs on the UnitCellFilter view (first to
fmax*10, then to fmax) followed by a final run with the trajectory attached;
without relax_cell a single FIRE run on the atoms with the trajectory
attached.  The trajectory file is opened in write mode in both branches. -/
def relax_core (env : FireEnv) (atoms : Atoms) (c : Calc) (cfg : RelaxConfig) :
    RelaxOut × List Effect :=
  let catoms0 := atoms.copy
  let catoms1 :=
    match cfg.rattle with
    | some r => { catoms0 with positions := env.rattlePos catoms0.positions r }
    | none => catoms0
  let catoms2 := { catoms1 with calcObj := some c }
  let catoms3 :=
    if cfg.sym then { catoms2 with constraints := [Constr.fixSymmetry] } else catoms2
  if cfg.relax_cell then
    let r1 := env.runUCF catoms3 cfg.cell_factor cfg.ucf_kwargs (cfg.fmax * 10)
    let catoms4 := { catoms3 with positions := r1.1.1, cell := r1.1.2 }
    let r2 := env.runUCF catoms4 cfg.cell_factor cfg.ucf_kwargs cfg.fmax
    let catoms5 := { catoms4 with positions := r2.1.1, cell := r2.1.2 }
    let r3 := env.runUCF catoms5 cfg.cell_factor cfg.ucf_kwargs cfg.fmax
    let catoms6 := { catoms5 with positions := r3.1.1, cell := r3.1.2 }
    (⟨catoms6, atoms⟩,
     [Effect.fireRunUCF cfg.cell_factor cfg.ucf_kwargs (cfg.fmax * 10) false r1.2,
      Effect.fireRunUCF cfg.cell_factor cfg.ucf_kwargs cfg.fmax false r2.2,
      Effect.openTraj cfg.traj_file FileMode.write, Effect.attachTraj,
      Effect.fireRunUCF cfg.cell_factor cfg.ucf_kwargs cfg.fmax true r3.2])
  else
    let r := env.runPos catoms3 cfg.fmax
    let catoms4 := { catoms3 with positions := r.1 }
    (⟨catoms4, atoms⟩,
     [Effect.openTraj cfg.traj_file FileMode.write, Effect.attachTraj,
      Effect.fireRun cfg.fmax true r.2])

/-- `relax_with_ml` (mlpot.py lines 19-70): resolve the calculator argument,
then run the relaxation body; a resolution failure (invalid backend tag)
propagates unchanged with no further effects. -/
def relax_with_ml (env : FireEnv) (atoms : Atoms) (ca : CalcArg)
    (cfg : RelaxConfig) : Except Err RelaxOut × List Effect :=
  match resolveCalc ca cfg.model_path with
  | (Except.error e, tr) => (Except.error e, tr)
  | (Except.ok c, tr0) =>
    let rc := relax_core env atoms c cfg
    (Except.ok rc.1, tr0 ++ rc.2)

/-- Whether an effect is an optimizer run. -/
def isOptRun : Effect → Bool
  | Effect.fireRun _ _ _ => true
  | Effect.fireRunUCF _ _ _ _ _ => true
  | _ => false

/-- Whether an optimizer-run effect happened with the trajectory attached
(for any other effect: false). -/
def trajAttachedOf : Effect → Bool
  | Effect.fireRun _ att _ => att
  | Effect.fireRunUCF _ _ _ att _ => att
  | _ => false

/-- Number of optimizer steps of an effect that were NOT recorded to the
trajectory: the steps of a run made with no trajectory attached. -/
def unrecordedOf : Effect → Nat
  | Effect.fireRun _ false n => n
  | Effect.fireRunUCF _ _ _ false n => n
  | _ => 0

/-- Total optimizer steps of a trace that were not recorded to the trajectory. -/
def unrecordedSteps : List Effect → Nat
  | [] => 0
  | e :: tr => unrecordedOf e + unrecordedSteps tr

/-- The files an effect writes (only a trajectory open in write mode writes a
file in `relax_with_ml`). -/
def writesOf : Effect → List String
  | Effect.openTraj p FileMode.write => [p]
  | _ => []

/-- All files written by a trace, in order. -/
def filesWritten : List Effect → List String
  | [] => []
  | e :: tr => writesOf e ++ filesWritten tr

/-- Calculator-resolution traces consist only of imports, loads and calculator
constructions: no optimizer runs, no file writes, no downstream calls. -/
def isResolutionEffect : Effect → Bool
  | Effect.importLib _ => true
  | Effect.loadModel _ => true
  | Effect.loadDefaultModel _ => true
  | Effect.loadModelDir _ => true
  | Effect.mkCalc _ => true
  | _ => false

theorem init_calc_resolution_only (s : String) (mp : Option String) :
    ∀ e ∈ (init_calc s mp).2, isResolutionEffect e = true := by
  unfold init_calc
  split
  · intro e he; simp only [List.mem_cons, List.not_mem_nil, or_false] at he
    rcases he with h | h | h | h <;> subst h <;> rfl
  · split
    · split
      · intro e he; simp only [List.mem_cons, List.not_mem_nil, or_false] at he
        rcases he with h | h | h <;> subst h <;> rfl
      · intro e he; simp only [List.mem_cons, List.not_mem_nil, or_false] at he
        rcases he with h | h | h <;> subst h <;> rfl
    · split
      · intro e he; simp only [List.mem_cons, List.not_mem_nil, or_false] at he
        rcases he with h | h <;> subst h <;> rfl
      · split
        · intro e he; simp only [List.mem_cons, List.not_mem_nil, or_false] at he
          rcases he with h | h <;> subst h <;> rfl
        · intro e he; simp at he

theorem resolveCalc_resolution_only (ca : CalcArg) (mp : Option String) :
    ∀ e ∈ (resolveCalc ca mp).2, isResolutionEffect e = true := by
  cases ca with
  | byName s => exact init_calc_resolution_only s mp
  | noCalc => exact init_calc_resolution_only "chgnet" none
  | given c => intro e he; simp [resolveCalc] at he

theorem relax_with_ml_ok (env : FireEnv) (a : Atoms) (c : Calc) (ca : CalcArg)
    (cfg : RelaxConfig) (tr0 : List Effect)
    (hres : resolveCalc ca cfg.model_path = (Except.ok c, tr0)) :
    relax_with_ml env a ca cfg =
      (Except.ok (relax_core env a c cfg).1, tr0 ++ (relax_core env a c cfg).2) := by
  unfold relax_with_ml
  rw [hres]

theorem relax_with_ml_err (env : FireEnv) (a : Atoms) (ca : CalcArg)
    (cfg : RelaxConfig) (e : Err) (tr0 : List Effect)
    (hres : resolveCalc ca cfg.model_path = (Except.error e, tr0)) :
    relax_with_ml env a ca cfg = (Except.error e, tr0) := by
  unfold relax_with_ml
  rw [hres]

theorem relax_core_callerAfter (env : FireEnv) (a : Atoms) (c : Calc)
    (cfg : RelaxConfig) : (relax_core env a c cfg).1.callerAfter = a := by
  unfold relax_core
  cases h : cfg.relax_cell <;> simp [h]

/-- Claim C2: relax_with_ml never mutates the caller's original configuration:
its positions and cell are equal before and after the call, because the
procedure operates on a private copy (line 49) and returns that copy. -/
theorem relax_with_ml_no_caller_mutation (env : FireEnv) (a : Atoms) (ca : CalcArg)
    (cfg : RelaxConfig) (r : RelaxOut) (tr : List Effect)
    (h : relax_with_ml env a ca cfg = (Except.ok r, tr)) :
    r.callerAfter.positions = a.positions ∧ r.callerAfter.cell = a.cell := by
  rcases hres : resolveCalc ca cfg.model_path with ⟨res, tr0⟩
  cases res with
  | error e =>
    rw [relax_with_ml_err env a ca cfg e tr0 hres] at h
    exact absurd h (by simp)
  | ok c =>
    rw [relax_with_ml_ok env a c ca cfg tr0 hres] at h
    simp only [Prod.mk.injEq, Except.ok.injEq] at h
    rw [← h.1, relax_core_callerAfter]
    exact ⟨rfl, rfl⟩

theorem relax_core_trace_cell (env : FireEnv) (a : Atoms) (c : Calc)
    (cfg : RelaxConfig) (hcell : cfg.relax_cell = true) :
    ∃ n1 n2 n3, (relax_core env a c cfg).2 =
      [Effect.fireRunUCF cfg.cell_factor cfg.ucf_kwargs (cfg.fmax * 10) false n1,
       Effect.fireRunUCF cfg.cell_factor cfg.ucf_kwargs cfg.fmax false n2,
       Effect.openTraj cfg.traj_file FileMode.write, Effect.attachTraj,
       Effect.fireRunUCF cfg.cell_factor cfg.ucf_kwargs cfg.fmax true n3] := by
  unfold relax_core
  simp only [hcell, if_true]
  exact ⟨_, _, _, rfl⟩

theorem relax_core_trace_nocell (env : FireEnv) (a : Atoms) (c : Calc)
    (cfg : RelaxConfig) (hcell : cfg.relax_cell = false) :
    ∃ n, (relax_core env a c cfg).2 =
      [Effect.openTraj cfg.traj_file FileMode.write, Effect.attachTraj,
       Effect.fireRun cfg.fmax true n] := by
  unfold relax_core
  simp only [hcell, Bool.false_eq_true, if_false]
  exact ⟨_, rfl⟩

theorem resolution_not_optRun (e : Effect) (h : isResolutionEffect e = true) :
    isOptRun e = false := by
  cases e <;> simp_all [isResolutionEffect, isOptRun]

theorem resolution_not_attached (e : Effect) (h : isResolutionEffect e = true) :
    trajAttachedOf e = false := by
  cases e <;> simp_all [isResolutionEffect, trajAttachedOf]

theorem resolution_writes_nothing (e : Effect) (h : isResolutionEffect e = true) :
    writesOf e = [] := by
  cases e <;> simp_all [isResolutionEffect, writesOf]

/-- Claim C5: with relax_cell=True, relax_with_ml wraps the copy in a
UnitCellFilter view parameterized by cell_factor and runs a first optimization
pass to the coarse threshold fmax*10, followed by a pass to the exact target
fmax; no optimizer run precedes those two (the resolution prefix contains no
runs). -/
theorem relax_with_ml_two_phase (env : FireEnv) (a : Atoms) (ca : CalcArg)
    (cfg : RelaxConfig) (c : Calc) (tr0 : List Effect) (r : RelaxOut)
    (tr : List Effect)
    (hcell : cfg.relax_cell = true)
    (hres : resolveCalc ca cfg.model_path = (Except.ok c, tr0))
    (hrun : relax_with_ml env a ca cfg = (Except.ok r, tr)) :
    (∀ e ∈ tr0, isOptRun e = false) ∧
    ∃ n1 n2 n3, tr = tr0 ++
      [Effect.fireRunUCF cfg.cell_factor cfg.ucf_kwargs (cfg.fmax * 10) false n1,
       Effect.fireRunUCF cfg.cell_factor cfg.ucf_kwargs cfg.fmax false n2,
       Effect.openTraj cfg.traj_file FileMode.write, Effect.attachTraj,
       Effect.fireRunUCF cfg.cell_factor cfg.ucf_kwargs cfg.fmax true n3] := by
  constructor
  · intro e he
    have h1 : (resolveCalc ca cfg.model_path).2 = tr0 := by rw [hres]
    exact resolution_not_optRun e
      (resolveCalc_resolution_only ca cfg.model_path e (by rw [h1]; exact he))
  · rw [relax_with_ml_ok env a c ca cfg tr0 hres] at hrun
    simp only [Prod.mk.injEq, Except.ok.injEq] at hrun
    obtain ⟨n1, n2, n3, htr⟩ := relax_core_trace_cell env a c cfg hcell
    exact ⟨n1, n2, n3, by rw [← hrun.2, htr]⟩

/-- Claim C9: with relax_cell=False only atomic positions are optimized: the
returned copy's cell equals the input's cell, and the caller's cell is also
unchanged. -/
theorem relax_with_ml_nocell_preserves_cell (env : FireEnv) (a : Atoms)
    (ca : CalcArg) (cfg : RelaxConfig) (r : RelaxOut) (tr : List Effect)
    (hcell : cfg.relax_cell = false)
    (hrun : relax_with_ml env a ca cfg = (Except.ok r, tr)) :
    r.result.cell = a.cell ∧ r.callerAfter.cell = a.cell := by
  rcases hres : resolveCalc ca cfg.model_path with ⟨res, tr0⟩
  cases res with
  | error e =>
    rw [relax_with_ml_err env a ca cfg e tr0 hres] at hrun
    exact absurd hrun (by simp)
  | ok c =>
    rw [relax_with_ml_ok env a c ca cfg tr0 hres] at hrun
    simp only [Prod.mk.injEq, Except.ok.injEq] at hrun
    rw [← hrun.1]
    refine ⟨?_, by rw [relax_core_callerAfter]⟩
    unfold relax_core
    simp only [hcell, Bool.false_eq_true, if_false]
    cases hr : cfg.rattle <;> cases hs : cfg.sym <;> simp [Atoms.copy, hr, hs]

/-- A concrete external-optimizer behaviour for evaluating the embedding on a
closed input: rattle and the optimizer leave coordinates unchanged and every
optimizer run takes exactly one step. -/
def env0 : FireEnv :=
  { rattlePos := fun p _ => p
    runPos := fun a _ => (a.positions, 1)
    runUCF := fun a _ _ _ => ((a.positions, a.cell), 1) }

/-- A concrete input configuration: one atom at the origin in a unit cell. -/
def atoms0 : Atoms :=
  { positions := [⟨0, 0, 0⟩]
    numbers := [1]
    cell := ⟨⟨1, 0, 0⟩, ⟨0, 1, 0⟩, ⟨0, 0, 1⟩⟩
    constraints := []
    calcObj := none }

/-- The resolution trace of the default "chgnet" backend. -/
def chgnetTrace0 : List Effect :=
  [Effect.importLib "chgnet.model.dynamics", Effect.mkCalc Calc.chgnetCalc]

/-- What `relax_with_ml` returns on `atoms0` under `env0`: the copy with the
calculator and the FixSymmetry constraint attached, coordinates unchanged. -/
def relaxedAtoms0 : Atoms :=
  { atoms0 with constraints := [Constr.fixSymmetry], calcObj := some Calc.chgnetCalc }

def relaxOut0 : RelaxOut := ⟨relaxedAtoms0, atoms0⟩

def relaxTrace0 : List Effect :=
  chgnetTrace0 ++
  [Effect.fireRunUCF defaultRelaxConfig.cell_factor [] (defaultRelaxConfig.fmax * 10) false 1,
   Effect.fireRunUCF defaultRelaxConfig.cell_factor [] defaultRelaxConfig.fmax false 1,
   Effect.openTraj "relax.traj" FileMode.write, Effect.attachTraj,
   Effect.fireRunUCF defaultRelaxConfig.cell_factor [] defaultRelaxConfig.fmax true 1]

/-- The default configuration with relax_cell switched off. -/
def cfgNoCell : RelaxConfig := { defaultRelaxConfig with relax_cell := false }

def relaxTraceNC0 : List Effect :=
  chgnetTrace0 ++
  [Effect.openTraj "relax.traj" FileMode.write, Effect.attachTraj,
   Effect.fireRun cfgNoCell.fmax true 1]

/-- Witness for C2 at the concrete input `atoms0`. -/
theorem relax_with_ml_no_caller_mutation_app :
    relaxOut0.callerAfter.positions = atoms0.positions ∧
    relaxOut0.callerAfter.cell = atoms0.cell :=
  relax_with_ml_no_caller_mutation env0 atoms0 CalcArg.noCalc defaultRelaxConfig
    relaxOut0 relaxTrace0 rfl

/-- Witness for C5 at the concrete input `atoms0` with the default
configuration (relax_cell=True). -/
theorem relax_with_ml_two_phase_app :
    (∀ e ∈ chgnetTrace0, isOptRun e = false) ∧
    ∃ n1 n2 n3, relaxTrace0 = chgnetTrace0 ++
      [Effect.fireRunUCF defaultRelaxConfig.cell_factor defaultRelaxConfig.ucf_kwargs
         (defaultRelaxConfig.fmax * 10) false n1,
       Effect.fireRunUCF defaultRelaxConfig.cell_factor defaultRelaxConfig.ucf_kwargs
         defaultRelaxConfig.fmax false n2,
       Effect.openTraj defaultRelaxConfig.traj_file FileMode.write, Effect.attachTraj,
       Effect.fireRunUCF defaultRelaxConfig.cell_factor defaultRelaxConfig.ucf_kwargs
         defaultRelaxConfig.fmax true n3] :=
  relax_with_ml_two_phase env0 atoms0 CalcArg.noCalc defaultRelaxConfig
    Calc.chgnetCalc chgnetTrace0 relaxOut0 relaxTrace0 rfl rfl rfl

/-- Witness for C9 at the concrete input `atoms0` with relax_cell=False. -/
theorem relax_with_ml_nocell_preserves_cell_app :
    relaxOut0.result.cell = atoms0.cell ∧ relaxOut0.callerAfter.cell = atoms0.cell :=
  relax_with_ml_nocell_preserves_cell env0 atoms0 CalcArg.noCalc cfgNoCell
    relaxOut0 relaxTraceNC0 rfl rfl

/-- Counterexample for C6: under `env0` (each pass takes one step), the default
call runs the two preliminary cell-relaxation passes before the trajectory is
attached, so two optimizer steps of the call are not recorded to the
trajectory file: "every optimizer step is recorded" fails at this input. -/
theorem relax_with_ml_traj_counterexample :
    unrecordedSteps (relax_with_ml env0 atoms0 CalcArg.noCalc defaultRelaxConfig).2 ≠ 0 := by
  decide

/-- Claim C6 (amended): for every call to relax_with_ml, the trajectory file at
the given path is opened in overwrite mode and attached to the optimizer
before the final optimization pass, so every step of the final pass is
recorded; the steps of any optimizer run before the attachment (the two
preliminary passes when relax_cell=True) are not recorded. -/
theorem relax_with_ml_traj_final_pass (env : FireEnv) (a : Atoms) (ca : CalcArg)
    (cfg : RelaxConfig) (c : Calc) (tr0 : List Effect) (r : RelaxOut)
    (tr : List Effect)
    (hres : resolveCalc ca cfg.model_path = (Except.ok c, tr0))
    (hrun : relax_with_ml env a ca cfg = (Except.ok r, tr)) :
    ∃ pre e, tr = pre ++
        [Effect.openTraj cfg.traj_file FileMode.write, Effect.attachTraj, e] ∧
      isOptRun e = true ∧ trajAttachedOf e = true ∧
      ∀ e2 ∈ pre, trajAttachedOf e2 = false := by
  rw [relax_with_ml_ok env a c ca cfg tr0 hres] at hrun
  simp only [Prod.mk.injEq, Except.ok.injEq] at hrun
  have hpre0 : ∀ e2 ∈ tr0, trajAttachedOf e2 = false := fun e2 h2 =>
    resolution_not_attached e2
      (resolveCalc_resolution_only ca cfg.model_path e2 (by rw [hres]; exact h2))
  cases hcell : cfg.relax_cell
  · obtain ⟨n, htr⟩ := relax_core_trace_nocell env a c cfg hcell
    refine ⟨tr0, Effect.fireRun cfg.fmax true n, ?_, rfl, rfl, hpre0⟩
    rw [← hrun.2, htr]
  · obtain ⟨n1, n2, n3, htr⟩ := relax_core_trace_cell env a c cfg hcell
    refine ⟨tr0 ++
        [Effect.fireRunUCF cfg.cell_factor cfg.ucf_kwargs (cfg.fmax * 10) false n1,
         Effect.fireRunUCF cfg.cell_factor cfg.ucf_kwargs cfg.fmax false n2],
      Effect.fireRunUCF cfg.cell_factor cfg.ucf_kwargs cfg.fmax true n3, ?_, rfl, rfl, ?_⟩
    · rw [← hrun.2, htr]
      simp [List.append_assoc]
    · intro e2 he2
      rcases List.mem_append.mp he2 with h2 | h2
      · exact hpre0 e2 h2
      · simp only [List.mem_cons, List.not_mem_nil, or_false] at h2
        rcases h2 with h2 | h2 <;> subst h2 <;> rfl

/-- Witness for the amended C6 at the concrete input `atoms0`. -/
theorem relax_with_ml_traj_final_pass_app :
    ∃ pre e, relaxTrace0 = pre ++
        [Effect.openTraj defaultRelaxConfig.traj_file FileMode.write, Effect.attachTraj, e] ∧
      isOptRun e = true ∧ trajAttachedOf e = true ∧
      ∀ e2 ∈ pre, trajAttachedOf e2 = false :=
  relax_with_ml_traj_final_pass env0 atoms0 CalcArg.noCalc defaultRelaxConfig
    Calc.chgnetCalc chgnetTrace0 relaxOut0 relaxTrace0 rfl rfl

theorem filesWritten_append (l1 l2 : List Effect) :
    filesWritten (l1 ++ l2) = filesWritten l1 ++ filesWritten l2 := by
  induction l1 with
  | nil => rfl
  | cons e t ih => simp [filesWritten, ih, List.append_assoc]

theorem filesWritten_resolution (l : List Effect)
    (h : ∀ e ∈ l, isResolutionEffect e = true) : filesWritten l = [] := by
  induction l with
  | nil => rfl
  | cons e t ih =>
    have he : writesOf e = [] :=
      resolution_writes_nothing e (h e (List.mem_cons_self e t))
    have ht : filesWritten t = [] := ih fun x hx => h x (List.mem_cons_of_mem e hx)
    simp [filesWritten, he, ht]

/-- Claim C7: relax_with_ml accepts an output_file parameter but never writes
that file: the only file the procedure itself writes is the trajectory file at
traj_file. -/
theorem relax_with_ml_writes_only_traj (env : FireEnv) (a : Atoms) (ca : CalcArg)
    (cfg : RelaxConfig) (r : RelaxOut) (tr : List Effect)
    (hrun : relax_with_ml env a ca cfg = (Except.ok r, tr)) :
    filesWritten tr = [cfg.traj_file] ∧
    (cfg.output_file ≠ cfg.traj_file → cfg.output_file ∉ filesWritten tr) := by
  rcases hres : resolveCalc ca cfg.model_path with ⟨res, tr0⟩
  cases res with
  | error e =>
    rw [relax_with_ml_err env a ca cfg e tr0 hres] at hrun
    exact absurd hrun (by simp)
  | ok c =>
    rw [relax_with_ml_ok env a c ca cfg tr0 hres] at hrun
    simp only [Prod.mk.injEq, Except.ok.injEq] at hrun
    have h0 : filesWritten tr0 = [] := filesWritten_resolution tr0 fun e he =>
      resolveCalc_resolution_only ca cfg.model_path e (by rw [hres]; exact he)
    have hmain : filesWritten tr = [cfg.traj_file] := by
      rw [← hrun.2, filesWritten_append, h0]
      cases hcell : cfg.relax_cell
      · obtain ⟨n, htr⟩ := relax_core_trace_nocell env a c cfg hcell
        rw [htr]; rfl
      · obtain ⟨n1, n2, n3, htr⟩ := relax_core_trace_cell env a c cfg hcell
        rw [htr]; rfl
    refine ⟨hmain, fun hne hmem => ?_⟩
    rw [hmain] at hmem
    simp only [List.mem_cons, List.not_mem_nil, or_false] at hmem
    exact hne hmem

/-- Witness for C7 at the concrete input `atoms0`: only "relax.traj" is
written, not the default output_file "POSCAR_relax.vasp". -/
theorem relax_with_ml_writes_only_traj_app :
    filesWritten relaxTrace0 = [defaultRelaxConfig.traj_file] ∧
    (defaultRelaxConfig.output_file ≠ defaultRelaxConfig.traj_file →
      defaultRelaxConfig.output_file ∉ filesWritten relaxTrace0) :=
  relax_with_ml_writes_only_traj env0 atoms0 CalcArg.noCalc defaultRelaxConfig
    relaxOut0 relaxTrace0 rfl

/-- A Python keyword dictionary: an insertion-ordered association list without
duplicate keys.  `dictSet` is a single key assignment of `dict.update`:
replace the value in place when the key is present, append otherwise. -/
def dictSet : List (String × PyVal) → String → PyVal → List (String × PyVal)
  | [], k, v => [(k, v)]
  | p :: d, k, v => if p.1 = k then (k, v) :: d else p :: dictSet d k v

/-- `d.update(kw)`: shallow key-by-key replacement, never a recursive merge. -/
def dictUpdate (d : List (String × PyVal)) (kw : List (String × PyVal)) :
    List (String × PyVal) :=
  kw.foldl (fun acc p => dictSet acc p.1 p.2) d

/-- Dictionary lookup. -/
def dictGet : List (String × PyVal) → String → Option PyVal
  | [], _ => none
  | p :: d, k => if p.1 = k then some p.2 else dictGet d k

/-- The `phon_args` defaults built by `phonon_with_ml` (mlpot.py lines
103-119): `np.diag([2,2,2])`, `np.eye(3)`, `VaspToTHz` from phonopy.units is
kept as a named external constant. -/
def phonDefaults : List (String × PyVal) :=
  [("forces_set_file", PyVal.pynone),
   ("ndim", PyVal.matrix [[2, 0, 0], [0, 2, 0], [0, 0, 2]]),
   ("primitive_matrix", PyVal.matrix [[1, 0, 0], [0, 1, 0], [0, 0, 1]]),
   ("distance", PyVal.rat (5 / 100)),
   ("factor", PyVal.extConst "VaspToTHz"),
   ("is_plusminus", PyVal.str "auto"),
   ("is_symmetry", PyVal.pybool true),
   ("symprec", PyVal.rat (1 / 1000)),
   ("func", PyVal.pynone),
   ("prepare_initial_wavecar", PyVal.pybool false),
   ("skip", PyVal.pynone),
   ("restart", PyVal.pybool false),
   ("parallel", PyVal.pybool false),
   ("sc_mag", PyVal.pynone),
   ("mask_force", PyVal.intList [1, 1, 1])]

/-- Step 2 of `phonon_with_ml` (line 101-102): if the relax flag is set,
replace the configuration with the result of `relax_with_ml(atoms, calc)` run
with default settings on the already-resolved calculator. -/
def phononRelaxStep (env : FireEnv) (atoms : Atoms) (c : Calc) (relax : Bool) :
    Atoms × List Effect :=
  if relax then
    match relax_with_ml env atoms (CalcArg.given c) defaultRelaxConfig with
    | (Except.ok r, trR) => (r.result, trR)
    | (Except.error _, trR) => (atoms, trR)
  else (atoms, [])

/-- `phonon_with_ml` (mlpot.py lines 73-133): resolve the calculator (a string
tag goes through `init_calc` with no model path, None defaults to "chgnet"),
optionally relax first, build `phon_args` from the defaults updated with the
caller's overrides, delegate to `calculate_phonon`, and optionally import the
plotting library and plot (band-path labels and vectors are passed through to
the plot call only; the figure name and point count are recorded). -/
def phonon_with_ml (env : FireEnv) (atoms : Atoms) (ca : CalcArg)
    (relax plot : Bool) (npoints : Nat) (figname : String)
    (kwargs : List (String × PyVal)) : Except Err Unit × List Effect :=
  match resolveCalc ca none with
  | (Except.error e, tr) => (Except.error e, tr)
  | (Except.ok c, tr0) =>
    let rx := phononRelaxStep env atoms c relax
    (Except.ok (),
     tr0 ++ rx.2 ++
       [Effect.callCalculatePhonon rx.1 c (dictUpdate phonDefaults kwargs)] ++
       (if plot then
          [Effect.importLib "pyDFTutils.phonon.plotphonopy",
           Effect.plotPhonon "./" figname npoints]
        else []))

/-- Whether an effect is the delegated phonon-calculation call. -/
def isPhononCall : Effect → Bool
  | Effect.callCalculatePhonon _ _ _ => true
  | _ => false

/-- The first delegated phonon call of a trace: the configuration, calculator
and option dictionary passed downstream. -/
def phononCall : List Effect → Option (Atoms × Calc × List (String × PyVal))
  | [] => none
  | Effect.callCalculatePhonon a c args :: _ => some (a, c, args)
  | _ :: tr => phononCall tr

theorem resolution_not_phononCall (e : Effect) (h : isResolutionEffect e = true) :
    isPhononCall e = false := by
  cases e <;> simp_all [isResolutionEffect, isPhononCall]

theorem phononCall_append_none (l rest : List Effect)
    (h : ∀ e ∈ l, isPhononCall e = false) :
    phononCall (l ++ rest) = phononCall rest := by
  induction l with
  | nil => rfl
  | cons e t ih =>
    have he := h e (List.mem_cons_self e t)
    have ht := ih fun x hx => h x (List.mem_cons_of_mem e hx)
    cases e <;> simp_all [phononCall, isPhononCall]

theorem relax_core_no_phononCall (env : FireEnv) (a : Atoms) (c : Calc)
    (cfg : RelaxConfig) :
    ∀ e ∈ (relax_core env a c cfg).2, isPhononCall e = false := by
  cases hcell : cfg.relax_cell
  · obtain ⟨n, htr⟩ := relax_core_trace_nocell env a c cfg hcell
    rw [htr]
    intro e he
    simp only [List.mem_cons, List.not_mem_nil, or_false] at he
    rcases he with h | h | h <;> subst h <;> rfl
  · obtain ⟨n1, n2, n3, htr⟩ := relax_core_trace_cell env a c cfg hcell
    rw [htr]
    intro e he
    simp only [List.mem_cons, List.not_mem_nil, or_false] at he
    rcases he with h | h | h | h | h <;> subst h <;> rfl

theorem relax_with_ml_given_ok (env : FireEnv) (a : Atoms) (c : Calc)
    (cfg : RelaxConfig) :
    relax_with_ml env a (CalcArg.given c) cfg =
      (Except.ok (relax_core env a c cfg).1, (relax_core env a c cfg).2) := by
  have h := relax_with_ml_ok env a c (CalcArg.given c) cfg [] rfl
  simpa using h

theorem phononRelaxStep_relax (env : FireEnv) (a : Atoms) (c : Calc) :
    phononRelaxStep env a c true =
      ((relax_core env a c defaultRelaxConfig).1.result,
       (relax_core env a c defaultRelaxConfig).2) := by
  simp [phononRelaxStep, relax_with_ml_given_ok]

theorem phononRelaxStep_no_phononCall (env : FireEnv) (a : Atoms) (c : Calc)
    (relax : Bool) :
    ∀ e ∈ (phononRelaxStep env a c relax).2, isPhononCall e = false := by
  cases relax
  · intro e he
    simp [phononRelaxStep] at he
  · rw [phononRelaxStep_relax]
    exact fun e he => relax_core_no_phononCall env a c defaultRelaxConfig e he

theorem phonon_with_ml_ok (env : FireEnv) (a : Atoms) (ca : CalcArg)
    (relax plot : Bool) (npoints : Nat) (figname : String)
    (kwargs : List (String × PyVal)) (c : Calc) (tr0 : List Effect)
    (hres : resolveCalc ca none = (Except.ok c, tr0)) :
    phonon_with_ml env a ca relax plot npoints figname kwargs =
      (Except.ok (),
       tr0 ++ (phononRelaxStep env a c relax).2 ++
         [Effect.callCalculatePhonon (phononRelaxStep env a c relax).1 c
            (dictUpdate phonDefaults kwargs)] ++
         (if plot then
            [Effect.importLib "pyDFTutils.phonon.plotphonopy",
             Effect.plotPhonon "./" figname npoints]
          else [])) := by
  unfold phonon_with_ml
  rw [hres]

theorem dictGet_dictSet_ne (d : List (String × PyVal)) (k k2 : String)
    (v : PyVal) (h : k ≠ k2) : dictGet (dictSet d k2 v) k = dictGet d k := by
  induction d with
  | nil => simp [dictSet, dictGet, Ne.symm h]
  | cons p t ih =>
    by_cases hp : p.1 = k2
    · simp only [dictSet, hp, if_true, dictGet]
      rw [if_neg (Ne.symm h), if_neg (Ne.symm h)]
    · simp only [dictSet, hp, if_false, dictGet, ih]

theorem dictGet_dictSet_self (d : List (String × PyVal)) (k : String)
    (v : PyVal) : dictGet (dictSet d k v) k = some v := by
  induction d with
  | nil => simp [dictSet, dictGet]
  | cons p t ih =>
    by_cases hp : p.1 = k
    · simp [dictSet, hp, dictGet]
    · simp [dictSet, hp, dictGet, ih]

theorem dictGet_dictUpdate_not_mem (kw d : List (String × PyVal)) (k : String)
    (h : k ∉ kw.map Prod.fst) :
    dictGet (dictUpdate d kw) k = dictGet d k := by
  induction kw generalizing d with
  | nil => rfl
  | cons p t ih =>
    simp only [List.map_cons, List.mem_cons, not_or] at h
    rw [show dictUpdate d (p :: t) = dictUpdate (dictSet d p.1 p.2) t from rfl,
        ih _ h.2, dictGet_dictSet_ne d k p.1 p.2 h.1]

/-- Claim C4: phonon_with_ml builds the downstream option dictionary by
starting from the documented defaults and replacing values key-by-key
(shallow): the dictionary passed to the phonon routine is exactly
`dictUpdate phonDefaults kwargs`, any key not overridden keeps its default
value, and a single-key override takes exactly the supplied value. -/
theorem phonon_with_ml_shallow_merge (env : FireEnv) (a : Atoms) (ca : CalcArg)
    (relax plot : Bool) (npoints : Nat) (figname : String)
    (kwargs : List (String × PyVal)) (k : String) (c : Calc) (tr0 : List Effect)
    (hres : resolveCalc ca none = (Except.ok c, tr0))
    (hk : k ∉ kwargs.map Prod.fst) :
    (∃ a2, phononCall (phonon_with_ml env a ca relax plot npoints figname kwargs).2 =
       some (a2, c, dictUpdate phonDefaults kwargs)) ∧
    dictGet (dictUpdate phonDefaults kwargs) k = dictGet phonDefaults k ∧
    ∀ kk vv, dictGet (dictUpdate phonDefaults [(kk, vv)]) kk = some vv := by
  refine ⟨?_, dictGet_dictUpdate_not_mem kwargs phonDefaults k hk,
    fun kk vv => dictGet_dictSet_self phonDefaults kk vv⟩
  refine ⟨(phononRelaxStep env a c relax).1, ?_⟩
  rw [phonon_with_ml_ok env a ca relax plot npoints figname kwargs c tr0 hres]
  have hno : ∀ e ∈ tr0 ++ (phononRelaxStep env a c relax).2,
      isPhononCall e = false := by
    intro e he
    rcases List.mem_append.mp he with h | h
    · exact resolution_not_phononCall e
        (resolveCalc_resolution_only ca none e (by rw [hres]; exact h))
    · exact phononRelaxStep_no_phononCall env a c relax e h
  rw [show ((Except.ok () : Except Err Unit),
      tr0 ++ (phononRelaxStep env a c relax).2 ++
        [Effect.callCalculatePhonon (phononRelaxStep env a c relax).1 c
           (dictUpdate phonDefaults kwargs)] ++
        (if plot then
           [Effect.importLib "pyDFTutils.phonon.plotphonopy",
            Effect.plotPhonon "./" figname npoints]
         else [])).2 =
      (tr0 ++ (phononRelaxStep env a c relax).2) ++
        ([Effect.callCalculatePhonon (phononRelaxStep env a c relax).1 c
            (dictUpdate phonDefaults kwargs)] ++
         (if plot then
            [Effect.importLib "pyDFTutils.phonon.plotphonopy",
             Effect.plotPhonon "./" figname npoints]
          else [])) from by simp [List.append_assoc]]
  rw [phononCall_append_none _ _ hno]
  rfl

/-- Witness for C4: overriding distance=0.02 leaves symprec at its default in
the merged dictionary passed downstream. -/
theorem phonon_with_ml_shallow_merge_app :
    (∃ a2, phononCall (phonon_with_ml env0 atoms0 CalcArg.noCalc false false 100
        "phonon.pdf" [("distance", PyVal.rat (2 / 100))]).2 =
       some (a2, Calc.chgnetCalc,
         dictUpdate phonDefaults [("distance", PyVal.rat (2 / 100))])) ∧
    dictGet (dictUpdate phonDefaults [("distance", PyVal.rat (2 / 100))]) "symprec" =
      dictGet phonDefaults "symprec" ∧
    ∀ kk vv, dictGet (dictUpdate phonDefaults [(kk, vv)]) kk = some vv :=
  phonon_with_ml_shallow_merge env0 atoms0 CalcArg.noCalc false false 100
    "phonon.pdf" [("distance", PyVal.rat (2 / 100))] "symprec"
    Calc.chgnetCalc chgnetTrace0 rfl (by decide)

/-- Claim C8: with relax=True, the configuration handed to calculate_phonon is
the result of relax_with_ml run with default settings and the already-resolved
calculator, and the relaxation's effects all precede the delegated call in the
trace. -/
theorem phonon_with_ml_relax_first (env : FireEnv) (a : Atoms) (ca : CalcArg)
    (plot : Bool) (npoints : Nat) (figname : String)
    (kwargs : List (String × PyVal)) (c : Calc) (tr0 : List Effect)
    (hres : resolveCalc ca none = (Except.ok c, tr0)) :
    ∃ r trR,
      relax_with_ml env a (CalcArg.given c) defaultRelaxConfig = (Except.ok r, trR) ∧
      (phonon_with_ml env a ca true plot npoints figname kwargs).2 =
        tr0 ++ trR ++
        [Effect.callCalculatePhonon r.result c (dictUpdate phonDefaults kwargs)] ++
        (if plot then
           [Effect.importLib "pyDFTutils.phonon.plotphonopy",
            Effect.plotPhonon "./" figname npoints]
         else []) := by
  refine ⟨(relax_core env a c defaultRelaxConfig).1,
    (relax_core env a c defaultRelaxConfig).2,
    relax_with_ml_given_ok env a c defaultRelaxConfig, ?_⟩
  rw [phonon_with_ml_ok env a ca true plot npoints figname kwargs c tr0 hres,
    phononRelaxStep_relax]

/-- Witness for C8 at the concrete input `atoms0` with the default "chgnet"
backend and no plotting. -/
theorem phonon_with_ml_relax_first_app :
    ∃ r trR,
      relax_with_ml env0 atoms0 (CalcArg.given Calc.chgnetCalc) defaultRelaxConfig =
        (Except.ok r, trR) ∧
      (phonon_with_ml env0 atoms0 CalcArg.noCalc true false 100 "phonon.pdf" []).2 =
        chgnetTrace0 ++ trR ++
        [Effect.callCalculatePhonon r.result Calc.chgnetCalc
           (dictUpdate phonDefaults [])] ++
        (if false then
           [Effect.importLib "pyDFTutils.phonon.plotphonopy",
            Effect.plotPhonon "./" "phonon.pdf" 100]
         else []) :=
  phonon_with_ml_relax_first env0 atoms0 CalcArg.noCalc false 100 "phonon.pdf" []
    Calc.chgnetCalc chgnetTrace0 rfl

/-- pymatgen's native structural representation of a configuration, produced
by `AseAtomsAdaptor.get_structure`. -/
structure PmgStructure where
  ofAtoms : Atoms
deriving DecidableEq

/-- `ase_to_pymatgen` (mlpot.py lines 10-16): convert an atoms object to the
external library's structure type. -/
def ase_to_pymatgen (atoms : Atoms) : PmgStructure := ⟨atoms⟩

/-- `XCdict` (mlpot.py line 189): the fixed functional-label codes. -/
def XCdict : List (String × Nat) :=
  [("PBE", 0), ("GLLB-SC", 1), ("HSE", 2), ("SCAN", 3)]

/-- Python dict lookup `d[k]`: Some value, or None (a KeyError at the call
site) when the key is absent. -/
def xcLookup : List (String × Nat) → String → Option Nat
  | [], _ => none
  | p :: d, k => if p.1 = k then some p.2 else xcLookup d k

/-- The external band-gap model's behaviour, abstracted: given the loaded
model's name, a structure and the integer conditioning feature, the value of
`model.predict_structure(structure, state_feats)` as a scalar. -/
structure GapEnv where
  predictStructure : String → PmgStructure → Nat → ℚ

/-- `MatGLGapPredictor`: holds the model handle loaded at construction. -/
structure MatGLGapPredictor where
  modelName : String
deriving DecidableEq

/-- `MatGLGapPredictor.__init__` (mlpot.py lines 204-208): import matgl and
load the fixed named band-gap model. -/
def MatGLGapPredictor.init : MatGLGapPredictor × List Effect :=
  ({ modelName := "MEGNet-MP-2019.4.1-BandGap-mfi" },
   [Effect.importLib "matgl", Effect.loadModel "MEGNet-MP-2019.4.1-BandGap-mfi"])

/-- `MatGLGapPredictor.predict_gap` (mlpot.py lines 210-220): import torch,
convert the configuration (which imports pymatgen's adaptor), look the
functional label up in XCdict — a missing label raises KeyError there, before
any model invocation — then call the model's structure-conditioned prediction
with the integer code and return the scalar result. -/
def MatGLGapPredictor.predict_gap (p : MatGLGapPredictor) (env : GapEnv)
    (atoms : Atoms) (xc : String) : Except Err ℚ × List Effect :=
  match xcLookup XCdict xc with
  | none =>
    (Except.error Err.keyError,
     [Effect.importLib "torch", Effect.importLib "pymatgen.io.ase"])
  | some code =>
    (Except.ok (env.predictStructure p.modelName (ase_to_pymatgen atoms) code),
     [Effect.importLib "torch", Effect.importLib "pymatgen.io.ase",
      Effect.predictStructureCall p.modelName code])

/-- `predict_gap` (mlpot.py lines 223-225): construct a fresh predictor, then
call its method. -/
def predict_gap (env : GapEnv) (atoms : Atoms) (xc : String) :
    Except Err ℚ × List Effect :=
  let pi := MatGLGapPredictor.init
  let r := MatGLGapPredictor.predict_gap pi.1 env atoms xc
  (r.1, pi.2 ++ r.2)

/-- The model invocations of a trace: (model name, integer conditioning code)
of each `predict_structure` call. -/
def predictCalls : List Effect → List (String × Nat)
  | [] => []
  | Effect.predictStructureCall m k :: tr => (m, k) :: predictCalls tr
  | _ :: tr => predictCalls tr

/-- How often a trace loads the named model. -/
def countModelLoads (name : String) : List Effect → Nat
  | [] => 0
  | Effect.loadModel n :: tr =>
    (if n = name then 1 else 0) + countModelLoads name tr
  | _ :: tr => countModelLoads name tr

/-- Claim C3: predict_gap encodes the functional label by its fixed integer
code (PBE=0, GLLB-SC=1, HSE=2, SCAN=3), passes that integer as the
conditioning feature to exactly one structure-conditioned model invocation and
returns the scalar result; a label outside the table raises a lookup error
with zero model invocations. -/
theorem predict_gap_encoding (env : GapEnv) (p : MatGLGapPredictor) (a : Atoms)
    (xc : String) :
    (xcLookup XCdict "PBE" = some 0 ∧ xcLookup XCdict "GLLB-SC" = some 1 ∧
     xcLookup XCdict "HSE" = some 2 ∧ xcLookup XCdict "SCAN" = some 3) ∧
    (∀ code, xcLookup XCdict xc = some code →
      MatGLGapPredictor.predict_gap p env a xc =
        (Except.ok (env.predictStructure p.modelName (ase_to_pymatgen a) code),
         [Effect.importLib "torch", Effect.importLib "pymatgen.io.ase",
          Effect.predictStructureCall p.modelName code]) ∧
      predictCalls (MatGLGapPredictor.predict_gap p env a xc).2 =
        [(p.modelName, code)]) ∧
    (xcLookup XCdict xc = none →
      (MatGLGapPredictor.predict_gap p env a xc).1 = Except.error Err.keyError ∧
      predictCalls (MatGLGapPredictor.predict_gap p env a xc).2 = []) := by
  refine ⟨⟨rfl, rfl, rfl, rfl⟩, ?_, ?_⟩
  · intro code hc
    unfold MatGLGapPredictor.predict_gap
    rw [hc]
    exact ⟨rfl, rfl⟩
  · intro hc
    unfold MatGLGapPredictor.predict_gap
    rw [hc]
    exact ⟨rfl, rfl⟩

/-- A concrete external model behaviour and freshly constructed predictor. -/
def genv0 : GapEnv := ⟨fun _ _ _ => 0⟩

def predictor0 : MatGLGapPredictor := MatGLGapPredictor.init.1

/-- Witness for C3: label "SCAN" produces exactly one model invocation with
code 3, and the unrecognized label "LDA" produces none. -/
theorem predict_gap_encoding_app :
    predictCalls (MatGLGapPredictor.predict_gap predictor0 genv0 atoms0 "SCAN").2 =
      [("MEGNet-MP-2019.4.1-BandGap-mfi", 3)] ∧
    predictCalls (MatGLGapPredictor.predict_gap predictor0 genv0 atoms0 "LDA").2 = [] := by
  constructor
  · exact ((predict_gap_encoding genv0 predictor0 atoms0 "SCAN").2.1 3 rfl).2
  · exact ((predict_gap_encoding genv0 predictor0 atoms0 "LDA").2.2 rfl).2

theorem countModelLoads_append (name : String) (l1 l2 : List Effect) :
    countModelLoads name (l1 ++ l2) =
      countModelLoads name l1 + countModelLoads name l2 := by
  induction l1 with
  | nil => simp [countModelLoads]
  | cons e t ih => cases e <;> simp [countModelLoads, ih, Nat.add_assoc]

theorem predict_gap_method_no_loads (p : MatGLGapPredictor) (env : GapEnv)
    (a : Atoms) (xc : String) :
    countModelLoads "MEGNet-MP-2019.4.1-BandGap-mfi"
      (MatGLGapPredictor.predict_gap p env a xc).2 = 0 := by
  unfold MatGLGapPredictor.predict_gap
  cases hc : xcLookup XCdict xc <;> simp [countModelLoads]

/-- Claim C10: every call of the module-level predict_gap constructs a
brand-new predictor — its result equals the method call on a freshly
constructed MatGLGapPredictor, and its trace loads the band-gap model from
the registry exactly once (so nothing is cached across calls). -/
theorem predict_gap_fresh_each_call (env : GapEnv) (a : Atoms) (xc : String) :
    (predict_gap env a xc).1 =
      (MatGLGapPredictor.predict_gap MatGLGapPredictor.init.1 env a xc).1 ∧
    countModelLoads "MEGNet-MP-2019.4.1-BandGap-mfi" (predict_gap env a xc).2 = 1 := by
  refine ⟨rfl, ?_⟩
  show countModelLoads "MEGNet-MP-2019.4.1-BandGap-mfi"
    (MatGLGapPredictor.init.2 ++
      (MatGLGapPredictor.predict_gap MatGLGapPredictor.init.1 env a xc).2) = 1
  rw [countModelLoads_append, predict_gap_method_no_loads]
  decide
